import Mathlib

/-!
Verification development for the RFID reader repository
(`rfid_reader_test.py`, `test_turkish_id.py`).

The Python code is shallowly embedded: decoded text is `List Char`, raw
byte captures are `List Nat` (each entry one byte), the card-type strings
returned by `CardInfo._detect_card_type` become the closed enumeration
`CardVariant`, and the stateful monitor loop becomes explicit state
passing on a small record type.  Python integer `%` on a positive modulus
agrees with `Int.emod`, which is what `%` denotes on `Int` in Lean.
-/

set_option maxRecDepth 8192

namespace Rfid

/-! ### Character predicates (ASCII-range models of the Python `str` methods) -/

/-- Model of `str.isdigit` per character: the characters `0`-`9`. -/
def isDigitCh (c : Char) : Bool :=
  48 ≤ c.toNat && c.toNat ≤ 57

/-- Model of `str.isalnum` per character: ASCII letters and digits. -/
def isAlnumCh (c : Char) : Bool :=
  isDigitCh c || (65 ≤ c.toNat && c.toNat ≤ 90) || (97 ≤ c.toNat && c.toNat ≤ 122)

/-- One character of the regex class `[0-9A-F]` used in `_detect_card_type`. -/
def isUpperHexCh (c : Char) : Bool :=
  isDigitCh c || (65 ≤ c.toNat && c.toNat ≤ 70)

/-- Model of `str.upper` per character on the ASCII range: lowercase
letters are mapped to uppercase, all other characters are unchanged. -/
def upperCh (c : Char) : Char :=
  if 97 ≤ c.toNat && c.toNat ≤ 122 then Char.ofNat (c.toNat - 32) else c

/-! ### Card classification (`CardInfo._detect_card_type`, lines 233-253) -/

/-- The closed set of card-type labels returned by `_detect_card_type`.
The constructors stand for the strings `"Turkish ID Card (TC Kimlik)"`,
`"Standard RFID Card"`, `"Long Format RFID Card"`,
`"Hexadecimal RFID Card"` and `"Unknown Card Type"`. -/
inductive CardVariant where
  | nationalId
  | standardRfid
  | longFormatRfid
  | hexadecimalRfid
  | unknown
deriving DecidableEq

/-- Embedding of `CardInfo._detect_card_type`: the raw data is uppercased
and then run through the ordered predicate chain of the source. -/
def detectCardType (rawData : List Char) : CardVariant :=
  let data := rawData.map upperCh
  if data.length = 11 ∧ data.all isDigitCh then .nationalId
  else if data.length = 10 ∧ data.all isAlnumCh then .standardRfid
  else if 16 ≤ data.length ∧ data.all isDigitCh then .longFormatRfid
  else if data.all isUpperHexCh ∧ 8 ≤ data.length then .hexadecimalRfid
  else .unknown

/-- Classifier chain written from the specification text (section 4.2):
an ordered predicate chain over the already-uppercased text, first match
wins.  Kept separate from `detectCardType` so the two can be compared. -/
def specClassify (u : List Char) : CardVariant :=
  if u.length = 11 ∧ u.all isDigitCh then .nationalId
  else if u.length = 10 ∧ u.all isAlnumCh then .standardRfid
  else if 16 ≤ u.length ∧ u.all isDigitCh then .longFormatRfid
  else if 8 ≤ u.length ∧ u.all isUpperHexCh then .hexadecimalRfid
  else .unknown

/-! ### National-ID checksum (`CardInfo._parse_turkish_id`, lines 273-304) -/

/-- The digit values of a character list, as Python's `int(d)` produces
them for digit characters (`[int(d) for d in data]`). -/
def digitVals (data : List Char) : List Int :=
  data.map fun c => (c.toNat : Int) - 48

/-- The dictionary returned by `_parse_turkish_id` on an 11-digit input
(the `"turkish_id"` payload).  `fullNumber` is the digit string. -/
structure TurkishIdParse where
  fullNumber : List Char
  isValid : Bool
  checkDigit10 : Int
  checkDigit11 : Int
  actualDigit10 : Int
  actualDigit11 : Int
deriving DecidableEq

/-- Embedding of `CardInfo._parse_turkish_id`.  Returns `none` for the
`{"error": "Invalid Turkish ID format"}` branch and `some` of the parsed
record otherwise.  Note `first_10_sum` sums `digits[:10]`, the first ten
digits only. -/
def parseTurkishId (data : List Char) : Option TurkishIdParse :=
  if data.length = 11 ∧ data.all isDigitCh then
    let digits := digitVals data
    let oddSum := digits.getD 0 0 + digits.getD 2 0 + digits.getD 4 0 +
      digits.getD 6 0 + digits.getD 8 0
    let evenSum := digits.getD 1 0 + digits.getD 3 0 + digits.getD 5 0 + digits.getD 7 0
    let digit10 := (oddSum * 7 - evenSum) % 10
    let first10Sum := (digits.take 10).foldl (· + ·) 0
    let digit11 := first10Sum % 10
    some { fullNumber := data
           isValid := decide (digits.getD 9 0 = digit10 ∧ digits.getD 10 0 = digit11)
           checkDigit10 := digit10
           checkDigit11 := digit11
           actualDigit10 := digits.getD 9 0
           actualDigit11 := digits.getD 10 0 }
  else none

/-- Embedding of the `valid` field of the dictionary returned by
`validate_turkish_id` in `test_turkish_id.py`: format errors and a
leading zero yield `valid = False`; otherwise the same checksum as
`_parse_turkish_id` decides the flag. -/
def validateTurkishIdValid (tc : List Char) : Bool :=
  if tc.length = 11 ∧ tc.all isDigitCh then
    let digits := digitVals tc
    if digits.getD 0 0 = 0 then false
    else
      let oddSum := digits.getD 0 0 + digits.getD 2 0 + digits.getD 4 0 +
        digits.getD 6 0 + digits.getD 8 0
      let evenSum := digits.getD 1 0 + digits.getD 3 0 + digits.getD 5 0 + digits.getD 7 0
      let digit10 := (oddSum * 7 - evenSum) % 10
      let first10Sum := (digits.take 10).foldl (· + ·) 0
      let digit11 := first10Sum % 10
      decide (digits.getD 9 0 = digit10 ∧ digits.getD 10 0 = digit11)
  else false

/-! ### Representation conversion (`_get_decimal_data`, lines 369-387, and
the hex dump built in `process_card_data`, line 519) -/

/-- Value of one hexadecimal digit character, accepting the characters
Python's `int(s, 16)` accepts inside a plain digit string: `0`-`9`,
`A`-`F` and `a`-`f`. -/
def hexDigitVal (c : Char) : Option Nat :=
  if 48 ≤ c.toNat && c.toNat ≤ 57 then some (c.toNat - 48)
  else if 65 ≤ c.toNat && c.toNat ≤ 70 then some (c.toNat - 55)
  else if 97 ≤ c.toNat && c.toNat ≤ 102 then some (c.toNat - 87)
  else none

/-- Accumulating base-16 parse of a digit list. -/
def hexParseCore : List Char → Nat → Option Nat
  | [], acc => some acc
  | c :: cs, acc =>
    match hexDigitVal c with
    | some v => hexParseCore cs (acc * 16 + v)
    | none => none

/-- Model of Python's `int(s, 16)` on plain hex-digit strings: `none`
models the raised `ValueError` (in particular on the empty string).
Sign prefixes, whitespace, underscores and a `0x` prefix never occur in
the strings this program parses and are modelled as failures. -/
def hexParse (s : List Char) : Option Nat :=
  if s.isEmpty then none else hexParseCore s 0

/-- One hex digit of the format `{b:02X}`: uppercase hexadecimal. -/
def toHexChar (n : Nat) : Char :=
  if n < 10 then Char.ofNat (48 + n) else Char.ofNat (55 + n)

/-- The two characters `{b:02X}` contributes for one byte. -/
def byteHex (b : Nat) : List Char :=
  [toHexChar (b / 16), toHexChar (b % 16)]

/-- Embedding of `' '.join([f'{b:02X}' for b in data])`: two uppercase
hex characters per byte, space-separated, in input order. -/
def hexDump : List Nat → List Char
  | [] => []
  | [b] => byteHex b
  | b :: rest => byteHex b ++ ' ' :: hexDump rest

/-- The non-hex-variant branch of `_get_decimal_data`: strip the spaces
from the hex dump, require an even character count, parse the whole
string as one base-16 integer and render it in decimal.  A parse failure
(the caught `ValueError`) yields the sentinel `"Conversion error"`; an
odd character count yields `"Invalid hex format"`. -/
def decimalFromDump (hexData : List Char) : String :=
  let hexChars := hexData.filter fun c => c != ' '
  if hexChars.length % 2 = 0 then
    match hexParse hexChars with
    | some n => Nat.repr n
    | none => "Conversion error"
  else "Invalid hex format"

/-- Embedding of `CardInfo._get_decimal_data`: hex-variant cards parse
the raw text itself as base 16; all other cards go through the hex dump.
`card_type` is the one computed from the raw data at construction. -/
def cardDecimalData (rawData hexData : List Char) : String :=
  if detectCardType rawData = CardVariant.hexadecimalRfid then
    match hexParse rawData with
    | some n => Nat.repr n
    | none => "Conversion error"
  else decimalFromDump hexData

/-- The big-endian unsigned-integer value of a byte sequence. -/
def beVal (bs : List Nat) : Nat :=
  bs.foldl (fun acc b => acc * 256 + b) 0

/-! ### Frame decoding and promotion (`process_card_data`, lines 503-521) -/

/-- A UTF-8 continuation byte, `0x80`-`0xBF`. -/
def isContByte (b : Nat) : Bool :=
  128 ≤ b && b ≤ 191

/-- Model of `bytes.decode('utf-8', errors='ignore')`: well-formed
sequences decode to their scalar value, ill-formed bytes are skipped
(maximal-valid-subpart semantics: on a bad continuation byte the decoder
resumes at that byte).  A truncated trailing sequence is dropped. -/
def utf8DecodeIgnore : List Nat → List Char
  | [] => []
  | b :: rest =>
    if b ≤ 127 then Char.ofNat b :: utf8DecodeIgnore rest
    else if 194 ≤ b && b ≤ 223 then
      match rest with
      | [] => []
      | b2 :: rest2 =>
        if isContByte b2 then
          Char.ofNat ((b - 192) * 64 + (b2 - 128)) :: utf8DecodeIgnore rest2
        else utf8DecodeIgnore (b2 :: rest2)
    else if 224 ≤ b && b ≤ 239 then
      match rest with
      | [] => []
      | b2 :: rest2 =>
        if (if b = 224 then 160 ≤ b2 && b2 ≤ 191
            else if b = 237 then 128 ≤ b2 && b2 ≤ 159
            else isContByte b2) then
          match rest2 with
          | [] => []
          | b3 :: rest3 =>
            if isContByte b3 then
              Char.ofNat ((b - 224) * 4096 + (b2 - 128) * 64 + (b3 - 128)) ::
                utf8DecodeIgnore rest3
            else utf8DecodeIgnore (b3 :: rest3)
        else utf8DecodeIgnore (b2 :: rest2)
    else if 240 ≤ b && b ≤ 244 then
      match rest with
      | [] => []
      | b2 :: rest2 =>
        if (if b = 240 then 144 ≤ b2 && b2 ≤ 191
            else if b = 244 then 128 ≤ b2 && b2 ≤ 143
            else isContByte b2) then
          match rest2 with
          | [] => []
          | b3 :: rest3 =>
            if isContByte b3 then
              match rest3 with
              | [] => []
              | b4 :: rest4 =>
                if isContByte b4 then
                  Char.ofNat ((b - 240) * 262144 + (b2 - 128) * 4096 +
                    (b3 - 128) * 64 + (b4 - 128)) :: utf8DecodeIgnore rest4
                else utf8DecodeIgnore (b4 :: rest4)
            else utf8DecodeIgnore (b3 :: rest3)
        else utf8DecodeIgnore (b2 :: rest2)
    else utf8DecodeIgnore rest

/-- Whitespace for Python's `str.strip` (the `str.isspace` set). -/
def isPySpace (c : Char) : Bool :=
  (9 ≤ c.toNat && c.toNat ≤ 13) || (28 ≤ c.toNat && c.toNat ≤ 32) ||
  c.toNat = 133 || c.toNat = 160 || c.toNat = 5760 ||
  (8192 ≤ c.toNat && c.toNat ≤ 8202) || c.toNat = 8232 || c.toNat = 8233 ||
  c.toNat = 8239 || c.toNat = 8287 || c.toNat = 12288

/-- Model of `str.strip()`: drop whitespace from both ends. -/
def pyStrip (l : List Char) : List Char :=
  ((l.dropWhile isPySpace).reverse.dropWhile isPySpace).reverse

/-- The cleanup applied in `process_card_data`: strip surrounding
whitespace, then remove every `\r`, `\n` and NUL character. -/
def cleanDecoded (l : List Char) : List Char :=
  (pyStrip l).filter fun c => !(c == '\r' || c == '\n' || c.toNat == 0)

/-- The record `process_card_data` promotes an accepted frame to:
the cleaned decoded text, the hex dump of the raw bytes, and the card
type computed from the cleaned text (as `CardInfo.__init__` does). -/
structure CardInfo where
  rawData : List Char
  hexData : List Char
  cardType : CardVariant
deriving DecidableEq

/-- Embedding of `EnhancedRFIDReader.process_card_data`: empty input and
captures whose cleaned decoded text is shorter than 8 characters are
rejected (`None`); otherwise the frame is promoted to a `CardInfo`. -/
def processCardData (data : List Nat) : Option CardInfo :=
  if data.isEmpty then none
  else
    let rfidData := cleanDecoded (utf8DecodeIgnore data)
    if rfidData.length < 8 then none
    else some { rawData := rfidData, hexData := hexDump data,
                cardType := detectCardType rfidData }

/-! ### Monitor loop and transport ownership (`monitor_rfid`, lines
523-606, and `disconnect`, lines 452-456) -/

/-- The connection-relevant state of `EnhancedRFIDReader`:
`conn = none` models `serial_connection is None`, `some b` models a
serial object whose `is_open` is `b`.  `readCount` is the running read
counter. -/
structure ReaderState where
  conn : Option Bool
  readCount : Nat
deriving DecidableEq

/-- Embedding of `EnhancedRFIDReader.disconnect`: close only when a
connection object exists and is open. -/
def disconnect (s : ReaderState) : ReaderState :=
  match s.conn with
  | some true => { s with conn := some false }
  | _ => s

/-- A successful `connect`: the serial object exists and is open. -/
def connectOpen (s : ReaderState) : ReaderState :=
  { s with conn := some true }

/-- The three ways the monitoring loop stops after a successful connect:
the duration bound expires (`break`), the user interrupts
(`KeyboardInterrupt`), or some other error is raised inside the loop. -/
inductive ExitReason where
  | durationExpired
  | interrupted
  | raisedError
deriving DecidableEq

/-- Abstraction of the `while` body of `monitor_rfid` up to the moment
the loop stops: it processes some number of frames (incrementing the
read counter) and never touches the connection.  The exit reason does
not change the state reached. -/
def monitorLoop (s : ReaderState) (frames : Nat) (_e : ExitReason) : ReaderState :=
  { s with readCount := s.readCount + frames }

/-- Embedding of `monitor_rfid`: a failed connect returns at once; after
a successful connect the loop body runs inside `try`/`finally`, so
`disconnect` is applied to the loop's final state on every exit path,
including the error path. -/
def monitorRfid (s : ReaderState) (connOk : Bool) (frames : Nat) (e : ExitReason) :
    ReaderState :=
  if connOk then disconnect (monitorLoop (connectOpen s) frames e)
  else s

/-- Integer value of the i-th digit character of a string (value 0 for a
missing position), used to state claims about the checksum. -/
def nthDigit (data : List Char) (i : Nat) : Int :=
  ((data.getD i '0').toNat : Int) - 48

/-! ### Helper lemmas -/

theorem toNat_ofNat_small (n : Nat) (h : n < 55296) : (Char.ofNat n).toNat = n := by
  have hv : n.isValidChar := Or.inl h
  simp only [Char.ofNat, hv, dif_pos]
  simp [Char.ofNatAux, Char.toNat, UInt32.toNat, BitVec.ofNatLt]

theorem charToNat_inj {c d : Char} (h : c.toNat = d.toNat) : c = d :=
  Char.eq_of_val_eq (UInt32.toNat.inj h)

theorem upperCh_of_digit {c : Char} (h : isDigitCh c = true) : upperCh c = c := by
  simp only [isDigitCh, Bool.and_eq_true, decide_eq_true_eq] at h
  simp only [upperCh, Bool.and_eq_true, decide_eq_true_eq]
  rw [if_neg]
  omega

theorem map_upperCh_digits {s : List Char} (h : s.all isDigitCh = true) :
    s.map upperCh = s := by
  rw [List.all_eq_true] at h
  have h2 : s.map upperCh = s.map id := List.map_congr_left fun c hc => upperCh_of_digit (h c hc)
  simpa using h2

/-! ### Claim theorems -/

/-- Claim C2: the national-ID checksum validator accepts the digit string
10000000146 and rejects 12345678901, 12345678910 and 11111111111; the
standalone validator in `test_turkish_id.py` agrees on all four vectors. -/
theorem claim2_known_vectors :
    (parseTurkishId ['1','0','0','0','0','0','0','0','1','4','6']).map (fun r => r.isValid)
      = some true ∧
    (parseTurkishId ['1','2','3','4','5','6','7','8','9','0','1']).map (fun r => r.isValid)
      = some false ∧
    (parseTurkishId ['1','2','3','4','5','6','7','8','9','1','0']).map (fun r => r.isValid)
      = some false ∧
    (parseTurkishId ['1','1','1','1','1','1','1','1','1','1','1']).map (fun r => r.isValid)
      = some false ∧
    validateTurkishIdValid ['1','0','0','0','0','0','0','0','1','4','6'] = true ∧
    validateTurkishIdValid ['1','2','3','4','5','6','7','8','9','0','1'] = false ∧
    validateTurkishIdValid ['1','2','3','4','5','6','7','8','9','1','0'] = false ∧
    validateTurkishIdValid ['1','1','1','1','1','1','1','1','1','1','1'] = false := by
  decide

/-- Claim C5, counterexample: on input text CAB9EAF2 the conversion
returns the decimal value 3401181938 of 0xCAB9EAF2, not the string
3400938738 that the claim asserts. -/
theorem claim5_counterexample :
    cardDecimalData ['C','A','B','9','E','A','F','2']
        ['4','3',' ','4','1',' ','4','2',' ','3','9',' ','4','5',' ','4','1',' ','4','6',' ','3','2']
      ≠ "3400938738" ∧
    cardDecimalData ['C','A','B','9','E','A','F','2']
        ['4','3',' ','4','1',' ','4','2',' ','3','9',' ','4','5',' ','4','1',' ','4','6',' ','3','2']
      = "3401181938" := by
  constructor
  · decide
  · decide

/-- Claim C5, amended: input text CAB9EAF2 is classified as the
hexadecimal RFID variant and its decimal conversion is 3401181938,
the decimal value of 0xCAB9EAF2. -/
theorem claim5_amended :
    detectCardType ['C','A','B','9','E','A','F','2'] = CardVariant.hexadecimalRfid ∧
    cardDecimalData ['C','A','B','9','E','A','F','2']
        ['4','3',' ','4','1',' ','4','2',' ','3','9',' ','4','5',' ','4','1',' ','4','6',' ','3','2']
      = "3401181938" ∧
    (3401181938 : Nat) =
      12 * 16 ^ 7 + 10 * 16 ^ 6 + 11 * 16 ^ 5 + 9 * 16 ^ 4 +
        14 * 16 ^ 3 + 10 * 16 ^ 2 + 15 * 16 + 2 := by
  refine ⟨by decide, by decide, by norm_num⟩

/-- Claim C9: after a successful connect the monitor applies the close
step on every exit path (duration expiry, interrupt, raised error), so it
never terminates with the transport open; and `disconnect` is idempotent
and a no-op on an already-closed or absent connection. -/
theorem claim9_close_on_every_exit :
    (∀ (s : ReaderState) (frames : Nat) (e : ExitReason),
      (monitorRfid s true frames e).conn ≠ some true) ∧
    (∀ s : ReaderState, disconnect (disconnect s) = disconnect s) ∧
    (∀ s : ReaderState, s.conn ≠ some true → disconnect s = s) := by
  refine ⟨?_, ?_, ?_⟩
  · intro s frames e
    simp [monitorRfid, monitorLoop, connectOpen, disconnect]
  · intro s
    rcases s with ⟨conn, n⟩
    rcases conn with _ | b
    · rfl
    · cases b <;> rfl
  · intro s h
    rcases s with ⟨conn, n⟩
    rcases conn with _ | b
    · rfl
    · cases b
      · rfl
      · exact absurd rfl h

/-- Claim C9, witness: a concrete run of the monitor with each exit
reason leaves the connection closed, and `disconnect` is a no-op on a
concrete closed state. -/
theorem claim9_witness :
    (monitorRfid ⟨none, 0⟩ true 3 ExitReason.durationExpired).conn ≠ some true ∧
    (monitorRfid ⟨none, 0⟩ true 0 ExitReason.interrupted).conn ≠ some true ∧
    (monitorRfid ⟨none, 0⟩ true 1 ExitReason.raisedError).conn ≠ some true ∧
    disconnect ⟨some false, 5⟩ = ⟨some false, 5⟩ :=
  ⟨claim9_close_on_every_exit.1 ⟨none, 0⟩ 3 ExitReason.durationExpired,
   claim9_close_on_every_exit.1 ⟨none, 0⟩ 0 ExitReason.interrupted,
   claim9_close_on_every_exit.1 ⟨none, 0⟩ 1 ExitReason.raisedError,
   claim9_close_on_every_exit.2.2 ⟨some false, 5⟩ (by simp)⟩


theorem eq_eleven {α : Type} (l : List α) (h : l.length = 11) :
    ∃ a0 a1 a2 a3 a4 a5 a6 a7 a8 a9 a10,
      l = [a0, a1, a2, a3, a4, a5, a6, a7, a8, a9, a10] := by
  obtain ⟨a0, t1, rfl⟩ := List.exists_of_length_succ l (show l.length = 10 + 1 by omega)
  simp only [List.length_cons] at h
  obtain ⟨a1, t2, rfl⟩ := List.exists_of_length_succ t1 (show t1.length = 9 + 1 by omega)
  simp only [List.length_cons] at h
  obtain ⟨a2, t3, rfl⟩ := List.exists_of_length_succ t2 (show t2.length = 8 + 1 by omega)
  simp only [List.length_cons] at h
  obtain ⟨a3, t4, rfl⟩ := List.exists_of_length_succ t3 (show t3.length = 7 + 1 by omega)
  simp only [List.length_cons] at h
  obtain ⟨a4, t5, rfl⟩ := List.exists_of_length_succ t4 (show t4.length = 6 + 1 by omega)
  simp only [List.length_cons] at h
  obtain ⟨a5, t6, rfl⟩ := List.exists_of_length_succ t5 (show t5.length = 5 + 1 by omega)
  simp only [List.length_cons] at h
  obtain ⟨a6, t7, rfl⟩ := List.exists_of_length_succ t6 (show t6.length = 4 + 1 by omega)
  simp only [List.length_cons] at h
  obtain ⟨a7, t8, rfl⟩ := List.exists_of_length_succ t7 (show t7.length = 3 + 1 by omega)
  simp only [List.length_cons] at h
  obtain ⟨a8, t9, rfl⟩ := List.exists_of_length_succ t8 (show t8.length = 2 + 1 by omega)
  simp only [List.length_cons] at h
  obtain ⟨a9, t10, rfl⟩ := List.exists_of_length_succ t9 (show t9.length = 1 + 1 by omega)
  simp only [List.length_cons] at h
  obtain ⟨a10, t11, rfl⟩ := List.exists_of_length_succ t10 (show t10.length = 0 + 1 by omega)
  simp only [List.length_cons] at h
  have ht : t11 = [] := List.eq_nil_of_length_eq_zero (by omega)
  subst ht
  exact ⟨a0, a1, a2, a3, a4, a5, a6, a7, a8, a9, a10, rfl⟩

/-- Claim C3: the classifier is a pure total function of the uppercased
input text given by the ordered predicate chain of the specification
(first match wins), and in particular every string of exactly 11 decimal
digits is classified as the national-ID variant, never the hexadecimal
one. -/
theorem claim3_classifier_chain :
    (∀ s : List Char, detectCardType s = specClassify (s.map upperCh)) ∧
    (∀ s : List Char, s.length = 11 → s.all isDigitCh = true →
      detectCardType s = CardVariant.nationalId) := by
  constructor
  · intro s
    simp only [detectCardType, specClassify]
    split_ifs <;> first | rfl | tauto
  · intro s h11 hd
    simp only [detectCardType, map_upperCh_digits hd]
    rw [if_pos ⟨h11, hd⟩]

/-- Claim C3, witness: the chain equality and the national-ID case at
concrete inputs. -/
theorem claim3_witness :
    detectCardType ['9', '8', '7', '6', '5', '4', '3', '2', '1', '0', '5']
      = CardVariant.nationalId ∧
    detectCardType ['c', 'a', 'b', '9', 'e', 'a', 'f', '2']
      = specClassify (['c', 'a', 'b', '9', 'e', 'a', 'f', '2'].map upperCh) :=
  ⟨claim3_classifier_chain.2 _ rfl (by decide), claim3_classifier_chain.1 _⟩


/-- Claim C1, counterexample: on the digit string 10000000146 the code
reports `valid = true` with eleventh check digit 6, although the sum of
all eleven digits mod 10 is 2, so a validator using the claimed
`check11 = (sum of d[0..10]) mod 10` would have to report `valid = false`
there. -/
theorem claim1_counterexample :
    (parseTurkishId ['1','0','0','0','0','0','0','0','1','4','6']).map
        (fun r => (r.isValid, r.checkDigit11, r.actualDigit11)) = some (true, 6, 6) ∧
    ((1 + 0 + 0 + 0 + 0 + 0 + 0 + 0 + 1 + 4 + 6 : Int) % 10 = 2) ∧ (6 : Int) ≠ 2 := by
  decide

/-- Claim C1, amended: for every 11-character decimal-digit string the
validator computes `check10 = (d0 + d2 + d4 + d6 + d8) * 7 - (d1 + d3 +
d5 + d7) mod 10` with a non-negative modulo, `check11` as the sum of the
FIRST TEN digits `d0..d9` mod 10, and reports `valid = true` exactly when
`d9 = check10` and `d10 = check11`. -/
theorem claim1_amended (data : List Char) (h11 : data.length = 11)
    (hd : data.all isDigitCh = true) :
    ∃ r, parseTurkishId data = some r ∧
      r.checkDigit10 = ((nthDigit data 0 + nthDigit data 2 + nthDigit data 4 +
          nthDigit data 6 + nthDigit data 8) * 7 -
        (nthDigit data 1 + nthDigit data 3 + nthDigit data 5 + nthDigit data 7)) % 10 ∧
      (0 : Int) ≤ r.checkDigit10 ∧
      r.checkDigit11 = (nthDigit data 0 + nthDigit data 1 + nthDigit data 2 +
        nthDigit data 3 + nthDigit data 4 + nthDigit data 5 + nthDigit data 6 +
        nthDigit data 7 + nthDigit data 8 + nthDigit data 9) % 10 ∧
      (r.isValid = true ↔
        (nthDigit data 9 = r.checkDigit10 ∧ nthDigit data 10 = r.checkDigit11)) := by
  obtain ⟨c0, c1, c2, c3, c4, c5, c6, c7, c8, c9, c10, rfl⟩ := eq_eleven data h11
  unfold parseTurkishId
  rw [if_pos ⟨rfl, hd⟩]
  refine ⟨_, rfl, ?_, ?_, ?_, ?_⟩
  · simp only [digitVals, nthDigit, List.map_cons, List.map_nil, List.getD_cons_zero,
      List.getD_cons_succ]
  · exact Int.emod_nonneg _ (by omega)
  · simp only [digitVals, nthDigit, List.map_cons, List.map_nil, List.getD_cons_zero,
      List.getD_cons_succ, List.take, List.foldl]
    omega
  · simp only [digitVals, nthDigit, List.map_cons, List.map_nil, List.getD_cons_zero,
      List.getD_cons_succ, List.take, List.foldl, decide_eq_true_eq]


/-- Claim C1, witness: the amended checksum statement instantiated at the
digit string 12345678901. -/
theorem claim1_witness :
    (parseTurkishId ['1','2','3','4','5','6','7','8','9','0','1']).isSome = true := by
  obtain ⟨r, hr, -, -, -, -⟩ :=
    claim1_amended ['1','2','3','4','5','6','7','8','9','0','1'] rfl (by decide)
  rw [hr]
  rfl

/-- Claim C7: the two national-ID validators are not equivalent.  On the
all-zero string 00000000000 (valid checksum arithmetic, leading digit 0)
`validate_turkish_id` reports `valid = false` while `_parse_turkish_id`
reports `valid = true`; on every 11-digit string whose first digit is
non-zero the two `valid` flags agree. -/
theorem claim7_leading_zero_divergence :
    (validateTurkishIdValid ['0','0','0','0','0','0','0','0','0','0','0'] = false ∧
     (parseTurkishId ['0','0','0','0','0','0','0','0','0','0','0']).map (fun r => r.isValid)
       = some true) ∧
    (∀ tc : List Char, tc.length = 11 → tc.all isDigitCh = true →
      tc.getD 0 '0' ≠ '0' →
      (parseTurkishId tc).map (fun r => r.isValid) = some (validateTurkishIdValid tc)) := by
  constructor
  · exact ⟨by decide, by decide⟩
  · intro tc h11 hd h0
    obtain ⟨c0, c1, c2, c3, c4, c5, c6, c7, c8, c9, c10, rfl⟩ := eq_eleven tc h11
    have hc0 : isDigitCh c0 = true := by
      rw [List.all_eq_true] at hd
      exact hd c0 (by simp)
    have hne : ((c0.toNat : Int) - 48) ≠ 0 := by
      simp only [isDigitCh, Bool.and_eq_true, decide_eq_true_eq] at hc0
      intro hEq
      apply h0
      simp only [List.getD_cons_zero]
      apply charToNat_inj
      have h48 : c0.toNat = 48 := by omega
      rw [h48]
      rfl
    unfold parseTurkishId validateTurkishIdValid
    rw [if_pos ⟨rfl, hd⟩, if_pos ⟨rfl, hd⟩]
    simp only [digitVals, List.map_cons, List.map_nil, List.getD_cons_zero,
      List.getD_cons_succ, Option.map_some]
    rw [if_neg hne]
    rfl

/-- Claim C7, witness: the agreement statement instantiated at the
digit string 11111111111. -/
theorem claim7_witness :
    (parseTurkishId ['1','1','1','1','1','1','1','1','1','1','1']).map (fun r => r.isValid)
      = some (validateTurkishIdValid ['1','1','1','1','1','1','1','1','1','1','1']) :=
  claim7_leading_zero_divergence.2 ['1','1','1','1','1','1','1','1','1','1','1']
    rfl (by decide) (by decide)


/-- Claim C8: the decimal conversion is total, returning either a decimal
rendering or one of the two sentinel strings and never aborting; an
11-digit national-ID string always yields a complete parsed record (a
checksum mismatch is reported through `valid = false`, not an error); and
the classification carried by a promoted frame is exactly the classifier
value of its text, independent of any conversion outcome. -/
theorem claim8_failures_do_not_abort :
    (∀ rawData hexData : List Char,
      cardDecimalData rawData hexData = "Conversion error" ∨
      cardDecimalData rawData hexData = "Invalid hex format" ∨
      ∃ n : Nat, cardDecimalData rawData hexData = Nat.repr n) ∧
    (∀ data : List Char, data.length = 11 → data.all isDigitCh = true →
      ∃ r, parseTurkishId data = some r ∧
        (r.isValid = false ↔
          ¬(r.actualDigit10 = r.checkDigit10 ∧ r.actualDigit11 = r.checkDigit11))) ∧
    (∀ (bytes : List Nat) (ci : CardInfo), processCardData bytes = some ci →
      ci.cardType = detectCardType ci.rawData) := by
  refine ⟨?_, ?_, ?_⟩
  · intro rawData hexData
    simp only [cardDecimalData, decimalFromDump]
    split_ifs
    · cases h : hexParse rawData
      · left
        rfl
      · right
        right
        exact ⟨_, rfl⟩
    · cases h : hexParse (hexData.filter fun c => c != ' ')
      · left
        rfl
      · right
        right
        exact ⟨_, rfl⟩
    · right
      left
      rfl
  · intro data h11 hd
    unfold parseTurkishId
    rw [if_pos ⟨h11, hd⟩]
    refine ⟨_, rfl, ?_⟩
    simp only [decide_eq_true_eq]
    constructor
    · intro h hc
      rw [decide_eq_false_iff_not] at h
      exact h hc
    · intro h
      rw [decide_eq_false_iff_not]
      exact h
  · intro bytes ci h
    simp only [processCardData] at h
    split_ifs at h
    simp only [Option.some.injEq] at h
    rw [← h]

/-- Claim C8, witness: the conversion trichotomy at a malformed hex dump
and the complete-record property at the mismatching string 12345678901. -/
theorem claim8_witness :
    (cardDecimalData ['N','O','T','H','E','X','!','!'] ['X'] = "Conversion error" ∨
     cardDecimalData ['N','O','T','H','E','X','!','!'] ['X'] = "Invalid hex format" ∨
     ∃ n : Nat, cardDecimalData ['N','O','T','H','E','X','!','!'] ['X'] = Nat.repr n) ∧
    (∃ r, parseTurkishId ['1','2','3','4','5','6','7','8','9','0','1'] = some r ∧
      (r.isValid = false ↔
        ¬(r.actualDigit10 = r.checkDigit10 ∧ r.actualDigit11 = r.checkDigit11))) :=
  ⟨claim8_failures_do_not_abort.1 ['N','O','T','H','E','X','!','!'] ['X'],
   claim8_failures_do_not_abort.2.1 ['1','2','3','4','5','6','7','8','9','0','1']
     rfl (by decide)⟩


theorem detect_hex_guard {raw : List Char}
    (h : detectCardType raw = CardVariant.hexadecimalRfid) :
    (raw.map upperCh).all isUpperHexCh = true ∧ 8 ≤ raw.length := by
  simp only [detectCardType] at h
  split_ifs at h with h1 h2 h3 h4
  all_goals first
    | exact absurd h (by decide)
    | exact ⟨h4.1, by simpa using h4.2⟩

theorem hexDigitVal_isSome_of_upper {c : Char}
    (h : isUpperHexCh (upperCh c) = true) : (hexDigitVal c).isSome = true := by
  by_cases hl : (97 ≤ c.toNat && c.toNat ≤ 122) = true
  · have hb : 97 ≤ c.toNat ∧ c.toNat ≤ 122 := by simpa using hl
    have ht : (upperCh c).toNat = c.toNat - 32 := by
      simp only [upperCh, if_pos hl]
      exact toNat_ofNat_small _ (by omega)
    simp only [isUpperHexCh, isDigitCh, ht, Bool.or_eq_true, Bool.and_eq_true,
      decide_eq_true_eq] at h
    simp only [hexDigitVal]
    split_ifs with g1 g2 g3
    · rfl
    · rfl
    · rfl
    · simp only [Bool.and_eq_true, decide_eq_true_eq, not_and, not_le] at g1 g2 g3
      omega
  · have ht : upperCh c = c := by
      simp only [upperCh, if_neg hl]
    rw [ht] at h
    simp only [isUpperHexCh, isDigitCh, Bool.or_eq_true, Bool.and_eq_true,
      decide_eq_true_eq] at h
    simp only [hexDigitVal]
    split_ifs with g1 g2 g3
    · rfl
    · rfl
    · rfl
    · simp only [Bool.and_eq_true, decide_eq_true_eq, not_and, not_le] at g1 g2 g3
      omega

theorem hexParseCore_total (l : List Char) :
    ∀ acc : Nat, (∀ c ∈ l, (hexDigitVal c).isSome = true) →
      ∃ n, hexParseCore l acc = some n := by
  induction l with
  | nil => exact fun acc _ => ⟨acc, rfl⟩
  | cons c cs ih =>
    intro acc h
    have hc := h c (by simp)
    rw [Option.isSome_iff_exists] at hc
    obtain ⟨v, hv⟩ := hc
    simp only [hexParseCore, hv]
    exact ih _ fun d hd => h d (by simp [hd])

/-- Claim C10: every text classified as the hexadecimal variant parses
successfully as base 16, so the decimal conversion renders a number and
the `"Conversion error"` branch is unreachable for that variant. -/
theorem claim10_hex_parse_never_fails (rawData hexData : List Char)
    (h : detectCardType rawData = CardVariant.hexadecimalRfid) :
    ∃ n : Nat, hexParse rawData = some n ∧
      cardDecimalData rawData hexData = Nat.repr n := by
  obtain ⟨hall, hlen⟩ := detect_hex_guard h
  have hne : rawData.isEmpty = false := by
    cases rawData
    · simp at hlen
    · rfl
  have hsome : ∀ c ∈ rawData, (hexDigitVal c).isSome = true := by
    intro c hc
    apply hexDigitVal_isSome_of_upper
    rw [List.all_eq_true] at hall
    exact hall (upperCh c) (List.mem_map_of_mem _ hc)
  obtain ⟨n, hn⟩ := hexParseCore_total rawData 0 hsome
  have hp : hexParse rawData = some n := by
    simp only [hexParse, hne]
    simpa using hn
  refine ⟨n, hp, ?_⟩
  simp only [cardDecimalData, if_pos h, hp]

/-- Claim C10, witness: the lowercase text cab9eaf2 is classified
hexadecimal and its parse succeeds. -/
theorem claim10_witness :
    ∃ n : Nat, hexParse ['c','a','b','9','e','a','f','2'] = some n ∧
      cardDecimalData ['c','a','b','9','e','a','f','2'] [] = Nat.repr n :=
  claim10_hex_parse_never_fails ['c','a','b','9','e','a','f','2'] [] (by decide)


theorem hexDigitVal_toHexChar (n : Nat) (h : n < 16) :
    hexDigitVal (toHexChar n) = some n := by
  interval_cases n <;> decide

theorem toHexChar_ne_space (n : Nat) (h : n < 16) : (toHexChar n != ' ') = true := by
  interval_cases n <;> decide

theorem hexParseCore_byteHex (x : Nat) (hx : x < 256) (rest : List Char) (acc : Nat) :
    hexParseCore (byteHex x ++ rest) acc = hexParseCore rest (acc * 256 + x) := by
  have h1 : x / 16 < 16 := by omega
  have h2 : x % 16 < 16 := by omega
  simp only [byteHex, List.cons_append, List.nil_append, hexParseCore,
    hexDigitVal_toHexChar _ h1, hexDigitVal_toHexChar _ h2]
  congr 1
  omega

theorem filter_hexDump (bs : List Nat) : (∀ x ∈ bs, x < 256) →
    (hexDump bs).filter (fun c => c != ' ') = (bs.map byteHex).flatten := by
  induction bs with
  | nil => intro _; rfl
  | cons b rest ih =>
    intro hb
    have hb1 : b < 256 := hb b (by simp)
    have k1 : (toHexChar (b / 16) != ' ') = true := toHexChar_ne_space _ (by omega)
    have k2 : (toHexChar (b % 16) != ' ') = true := toHexChar_ne_space _ (by omega)
    cases rest with
    | nil =>
      simp only [hexDump, List.map_cons, List.map_nil, List.flatten, byteHex]
      simp [List.filter_cons, k1, k2]
    | cons b2 rest2 =>
      have ih2 := ih fun x hx => hb x (by simp [hx])
      simp only [hexDump, List.map_cons, List.flatten_cons] at ih2 ⊢
      rw [List.filter_append]
      simp only [byteHex, List.filter_cons, k1, k2, if_pos]
      rw [if_neg (by decide), ih2]
      simp [byteHex]

theorem flatten_byteHex_length (bs : List Nat) :
    ((bs.map byteHex).flatten).length = 2 * bs.length := by
  induction bs with
  | nil => rfl
  | cons b rest ih =>
    simp only [List.map_cons, List.flatten_cons, List.length_append, ih, byteHex]
    simp only [List.length_cons, List.length_nil]
    omega

theorem hexParseCore_flatten (bs : List Nat) : ∀ acc : Nat, (∀ x ∈ bs, x < 256) →
    hexParseCore ((bs.map byteHex).flatten) acc
      = some (bs.foldl (fun a b => a * 256 + b) acc) := by
  induction bs with
  | nil => intro acc _; rfl
  | cons b rest ih =>
    intro acc hb
    simp only [List.map_cons, List.flatten_cons, List.foldl_cons]
    rw [hexParseCore_byteHex b (hb b (by simp))]
    exact ih _ fun x hx => hb x (by simp [hx])

/-- Claim C4: for every non-empty byte sequence, the non-hex-variant
decimal conversion applied to its hex dump renders exactly the decimal
representation of the sequence read as one big-endian unsigned integer. -/
theorem claim4_roundtrip (bs : List Nat) (hne : bs ≠ []) (hb : ∀ x ∈ bs, x < 256) :
    decimalFromDump (hexDump bs) = Nat.repr (beVal bs) := by
  have hfil := filter_hexDump bs hb
  have hlen := flatten_byteHex_length bs
  simp only [decimalFromDump, hfil]
  rw [if_pos (by omega : ((bs.map byteHex).flatten).length % 2 = 0)]
  have hflat_ne : ((bs.map byteHex).flatten).isEmpty = false := by
    cases hJ : (bs.map byteHex).flatten with
    | nil =>
      rw [hJ] at hlen
      cases bs with
      | nil => exact absurd rfl hne
      | cons x xs => simp at hlen
    | cons x xs => rfl
  simp only [hexParse, hflat_ne, Bool.false_eq_true, if_false]
  rw [hexParseCore_flatten bs 0 hb]
  rfl

/-- Claim C4, witness: the round trip at the four-byte sequence
CA B9 EA F2, whose big-endian value is 3401181938. -/
theorem claim4_witness :
    decimalFromDump (hexDump [202, 185, 234, 242]) = Nat.repr (beVal [202, 185, 234, 242]) :=
  claim4_roundtrip [202, 185, 234, 242] (by decide) (by decide)


set_option maxHeartbeats 2000000 in
theorem utf8DecodeIgnore_length_le (l : List Nat) :
    (utf8DecodeIgnore l).length ≤ l.length := by
  induction l using utf8DecodeIgnore.induct <;>
    (rw [utf8DecodeIgnore.eq_def]
     (try split_ifs) <;> simp_all <;> (try omega) <;>
       ((repeat rw [if_neg (by omega)])
        try simp only [List.length_cons, List.length_nil]
        omega))

theorem dropWhile_length_le (p : Char → Bool) (l : List Char) :
    (l.dropWhile p).length ≤ l.length := by
  induction l with
  | nil => exact le_refl _
  | cons c cs ih =>
    rw [List.dropWhile_cons]
    split_ifs
    · simp only [List.length_cons]
      omega
    · exact le_refl _

theorem pyStrip_length_le (l : List Char) : (pyStrip l).length ≤ l.length := by
  simp only [pyStrip, List.length_reverse]
  calc ((l.dropWhile isPySpace).reverse.dropWhile isPySpace).length
      ≤ (l.dropWhile isPySpace).reverse.length :=
        dropWhile_length_le _ _
    _ = (l.dropWhile isPySpace).length := List.length_reverse _
    _ ≤ l.length := dropWhile_length_le _ _

theorem cleanDecoded_length_le (l : List Char) : (cleanDecoded l).length ≤ l.length :=
  le_trans (List.length_filter_le _ _) (pyStrip_length_le l)

theorem utf8DecodeIgnore_ascii (l : List Nat) : (∀ b ∈ l, b ≤ 127) →
    utf8DecodeIgnore l = l.map Char.ofNat := by
  induction l with
  | nil => intro _; rfl
  | cons b rest ih =>
    intro h
    have hb : b ≤ 127 := h b (by simp)
    rw [utf8DecodeIgnore.eq_def]
    simp only [if_pos hb, List.map_cons]
    rw [ih fun x hx => h x (by simp [hx])]

theorem dropWhile_eq_self_of_none (p : Char → Bool) (l : List Char)
    (h : ∀ c ∈ l, p c = false) : l.dropWhile p = l := by
  cases l with
  | nil => rfl
  | cons c cs =>
    rw [List.dropWhile_cons, if_neg]
    simp [h c (by simp)]

theorem cleanDecoded_printable (l : List Char) (h : ∀ c ∈ l, 33 ≤ c.toNat ∧ c.toNat ≤ 126) :
    cleanDecoded l = l := by
  have hws : ∀ c ∈ l, isPySpace c = false := by
    intro c hc
    have hcb := h c hc
    simp only [isPySpace, Bool.or_eq_false_iff, Bool.and_eq_false_iff,
      decide_eq_false_iff_not, not_le]
    omega
  have h1 : l.dropWhile isPySpace = l := dropWhile_eq_self_of_none _ _ hws
  have h2 : l.reverse.dropWhile isPySpace = l.reverse :=
    dropWhile_eq_self_of_none _ _ fun c hc => hws c (List.mem_reverse.mp hc)
  have h3 : pyStrip l = l := by
    simp only [pyStrip, h1, h2, List.reverse_reverse]
  simp only [cleanDecoded, h3]
  rw [List.filter_eq_self.mpr]
  intro c hc
  have hcb := h c hc
  have d1 : (c == '\r') = false := by
    apply beq_eq_false_iff_ne.mpr
    intro hEq
    rw [hEq] at hcb
    simp at hcb
  have d2 : (c == '\n') = false := by
    apply beq_eq_false_iff_ne.mpr
    intro hEq
    rw [hEq] at hcb
    simp at hcb
  have d3 : (c.toNat == 0) = false := by
    simp only [beq_eq_false_iff_ne, ne_eq]
    omega
  simp [d1, d2, d3]

/-- Claim C6, counterexample: the 8-byte capture 41 42 43 44 45 46 47 0D
(text `ABCDEFG` followed by a carriage return) is discarded, because the
length check runs on the decoded text after stripping control
characters, so not every 8-byte frame is accepted. -/
theorem claim6_counterexample :
    ([65, 66, 67, 68, 69, 70, 71, 13] : List Nat).length = 8 ∧
    processCardData [65, 66, 67, 68, 69, 70, 71, 13] = none := by
  exact ⟨rfl, by decide⟩

/-- Claim C6, amended: a 7-byte capture is always discarded; every
promoted frame comes from a capture of at least 8 bytes; and an 8-byte
capture is accepted when its decoded, cleaned text still has 8
characters, in particular whenever all bytes are printable non-space
ASCII. -/
theorem claim6_amended :
    (∀ data : List Nat, data.length = 7 → processCardData data = none) ∧
    (∀ (data : List Nat) (ci : CardInfo), processCardData data = some ci →
      8 ≤ data.length) ∧
    (∀ data : List Nat, data.length = 8 → (∀ b ∈ data, 33 ≤ b ∧ b ≤ 126) →
      ∃ ci, processCardData data = some ci) := by
  refine ⟨?_, ?_, ?_⟩
  · intro data h7
    by_cases he : data.isEmpty = true
    · simp [processCardData, he]
    · have hlen : (cleanDecoded (utf8DecodeIgnore data)).length < 8 := by
        have := cleanDecoded_length_le (utf8DecodeIgnore data)
        have := utf8DecodeIgnore_length_le data
        omega
      simp only [processCardData, he, Bool.false_eq_true, if_false, hlen, if_true]
  · intro data ci h
    simp only [processCardData] at h
    split_ifs at h with h1 h2
    have := cleanDecoded_length_le (utf8DecodeIgnore data)
    have := utf8DecodeIgnore_length_le data
    omega
  · intro data h8 hb
    have hne : data.isEmpty = false := by
      cases data
      · simp at h8
      · rfl
    have hd : utf8DecodeIgnore data = data.map Char.ofNat :=
      utf8DecodeIgnore_ascii data fun b hbm => le_trans (hb b hbm).2 (by omega)
    have hclean : cleanDecoded (data.map Char.ofNat) = data.map Char.ofNat := by
      apply cleanDecoded_printable
      intro c hc
      rw [List.mem_map] at hc
      obtain ⟨b, hbm, rfl⟩ := hc
      have hbb := hb b hbm
      rw [toNat_ofNat_small b (by omega)]
      exact hbb
    have hlen : ¬((cleanDecoded (utf8DecodeIgnore data)).length < 8) := by
      rw [hd, hclean, List.length_map, h8]
      omega
    simp only [processCardData, hne, Bool.false_eq_true, if_false, hlen, if_false]
    exact ⟨_, rfl⟩

/-- Claim C6, witness: a concrete 7-byte capture is discarded and the
concrete 8-byte capture `ABCDEFGH` is promoted. -/
theorem claim6_witness :
    processCardData [49, 50, 51, 52, 53, 54, 55] = none ∧
    ∃ ci, processCardData [65, 66, 67, 68, 69, 70, 71, 72] = some ci :=
  ⟨claim6_amended.1 [49, 50, 51, 52, 53, 54, 55] rfl,
   claim6_amended.2.2 [65, 66, 67, 68, 69, 70, 71, 72] rfl (by decide)⟩

end Rfid
